import Mathlib

/-!
# Verification of the mev_commit_timescaldb ingestion core

This file gives a shallow embedding, in Lean 4, of the schema-evolving
writer, the cursor tracker, the materialized-view manager and the
orchestrator retry loop of the repository (`src/pipeline/db.py`,
`src/pipeline/materialized_views.py`, `src/main.py`), and proves or
refutes the frozen claims about them.

Modelling conventions:
* Python/psycopg database state is modelled explicitly: a database is an
  association list from table name to `Table`; a `Table` carries its
  column list (name, storage type), its primary-key column list and its
  rows.  Rows are association lists from column name to `Value`.
* Fallible operations return `Except (DbError × DBState) DBState`; the
  state carried by an error is the state as committed at the time the
  exception propagates (psycopg `rollback` discards everything after the
  last `commit`).
* Polars value-level cast coercions that succeed on already-compatible
  payloads (e.g. casting an Int64 column that already holds integers)
  are modelled as the identity on the payload; casting to Utf8 renders
  the payload as text.  The claims under verification do not depend on
  any finer cast semantics.
* SQL identifiers produced by `escape_column_name` are modelled
  structurally as a base name plus a quoted flag (`SqlIdent`); rendering
  `"name"` versus `name` is a printing concern only.  `cleanName`
  models both Python's `name.replace('"', '').lower()` and the
  PostgreSQL resolution of the identifier (quoted identifiers are
  emitted with an already-lowercase base here, unquoted ones are
  lowercased by the server), so CREATE/ALTER/INSERT and the
  `information_schema` introspection all agree on one stored name.
-/

/-- The reserved-word set from `src/pipeline/db.py` (`RESERVED_KEYWORDS`). -/
def RESERVED_KEYWORDS : List String :=
  ["window", "user", "order", "group", "default", "check", "index",
   "primary", "foreign", "references", "constraint", "select", "where",
   "from", "table", "column", "limit", "to", "into", "update", "delete",
   "insert", "values", "value", "any", "some", "all", "distinct", "as",
   "between", "by", "join", "cross", "inner", "outer", "left", "right",
   "natural", "union", "intersect", "except", "case", "when", "then", "else",
   "end", "desc", "asc", "nulls", "first", "last", "grant", "with"]

/-- Python's `str.lower()`, modelled as a character map over the string's
characters.  (Defined over `String.data` so that the kernel can evaluate
it; `String.toLower` itself is defined through position arithmetic the
kernel cannot reduce.) -/
def pyLower (s : String) : String :=
  ⟨s.data.map Char.toLower⟩

/-- Python's `str.strip()`: drop whitespace from both ends. -/
def pyStrip (s : String) : String :=
  ⟨((s.data.dropWhile Char.isWhitespace).reverse.dropWhile Char.isWhitespace).reverse⟩

/-- `normalize_table_name` from `src/pipeline/db.py`: lowercase then strip. -/
def normalize_table_name (table_name : String) : String :=
  pyStrip (pyLower table_name)

/-- `normalize_column_name` from `src/pipeline/db.py`: lowercase then strip. -/
def normalize_column_name (name : String) : String :=
  pyStrip (pyLower name)

deriving instance DecidableEq for Except

/-- A SQL identifier as produced by `escape_column_name`: the base name plus
whether it was wrapped in double quotes.  Rendering is `"base"` when quoted
and `base` otherwise. -/
structure SqlIdent where
  base : String
  quoted : Bool
deriving DecidableEq

/-- `escape_column_name` from `src/pipeline/db.py`: wrap the name in double
quotes when its lowercase form is a reserved keyword. -/
def escape_column_name (name : String) : SqlIdent :=
  ⟨name, pyLower name ∈ RESERVED_KEYWORDS⟩

/-- The column name actually stored in / reported by the server for an
identifier: strip quotes and lowercase.  This is the composite
`name.replace('"', '').lower()` used at `src/pipeline/db.py:180`, and also
how the server resolves the identifiers the writer emits. -/
def cleanName (i : SqlIdent) : String :=
  pyLower i.base

/-- `get_primary_key_columns` from `src/pipeline/db.py`. -/
def get_primary_key_columns (table_name : String) : List String :=
  if table_name = "staked" ∨ table_name = "staked_old" then
    ["block_number", "valblspubkey"]
  else
    ["block_number", "hash"]

/-- The Polars data types the writer distinguishes.  `isinstance` checks in
`get_timescale_type` test Datetime, Int64, Float64, Boolean and UInt64; all
remaining dtypes fall into the TEXT branch, represented here by `utf8`,
`int32` and `binary`. -/
inductive PlDataType
  | datetime | int64 | float64 | boolean | uint64 | utf8 | int32 | binary
deriving DecidableEq

/-- The TimescaleDB storage types the writer emits. -/
inductive TsType
  | bigint | text | timestamptz | doublePrecision | boolean | numeric78
deriving DecidableEq

/-- `get_timescale_type`, the helper nested in `convert_schema_to_timescale`
(`src/pipeline/db.py:98`). -/
def get_timescale_type (name : String) (pl_dtype : PlDataType) : TsType :=
  if pyLower name = "block_number" then .bigint
  else if pyLower name = "hash" ∨ pyLower name = "valblspubkey" then .text
  else match pl_dtype with
    | .datetime => .timestamptz
    | .int64 => .bigint
    | .float64 => .doublePrecision
    | .boolean => .boolean
    | .uint64 => .numeric78
    | _ => .text

/-- `convert_schema_to_timescale` from `src/pipeline/db.py`. -/
def convert_schema_to_timescale (schema : List (String × PlDataType)) :
    List (SqlIdent × TsType) :=
  schema.map (fun nd => (escape_column_name nd.1, get_timescale_type nd.1 nd.2))

/-- A cell value in a record batch / table row.  Numeric payloads are exact
(`Int`); the writer never performs floating-point arithmetic on values, so
float cells never occur in the properties below. -/
inductive Value
  | vInt (i : Int)
  | vStr (s : String)
  | vBool (b : Bool)
  | vNull
deriving DecidableEq

/-- Value-level cast: casting to Utf8 renders the payload as text (this is
the `pl.col(c).cast(pl.Utf8)` used for wide unsigned columns); other casts
keep an already-compatible payload unchanged. -/
def castValue (target : PlDataType) (v : Value) : Value :=
  match target, v with
  | .utf8, .vInt i => .vStr (toString i)
  | .utf8, .vBool b => .vStr (if b then "true" else "false")
  | _, v => v

/-- A Polars record batch: an ordered schema (column name, dtype) and rows,
each row a list of cells aligned with the schema. -/
structure DataFrame where
  schema : List (String × PlDataType)
  rows : List (List Value)
deriving DecidableEq

/-- `df.columns` in Polars: the schema's names in order. -/
def DataFrame.columns (df : DataFrame) : List String :=
  df.schema.map Prod.fst

/-- `df.is_empty()` in Polars: no rows. -/
def DataFrame.is_empty (df : DataFrame) : Bool :=
  df.rows.isEmpty

/-- `df.rename({col: normalize_column_name(col) for col in df.columns})`
(`src/pipeline/db.py:239`). -/
def renameNormalize (df : DataFrame) : DataFrame :=
  { schema := df.schema.map (fun nd => (normalize_column_name nd.1, nd.2)),
    rows := df.rows }

/-- Errors the writer can raise.  `valueError` is the explicit
`raise ValueError(...)` naming the missing primary-key columns;
`columnNotFound` is the Polars error raised by `pl.col(c).cast(...)` when
the column is absent; `notNullViolation` is the server error raised by an
INSERT placing NULL into a primary-key column; `tableNotFound` is the
server error for inserting into a missing table. -/
inductive DbError
  | valueError (missing : List String) (table : String)
  | columnNotFound (col : String)
  | notNullViolation (col : String)
  | tableNotFound (table : String)
deriving DecidableEq

/-- `df.with_columns(pl.col(c).cast(dt))`: retype column `c` and cast its
cells; raises (columnNotFound) when `c` is not a column of `df`. -/
def castColumn (df : DataFrame) (c : String) (dt : PlDataType) :
    Except DbError DataFrame :=
  if c ∈ df.columns then
    .ok { schema := df.schema.map (fun nd => if nd.1 = c then (nd.1, dt) else nd),
          rows := df.rows.map (fun r =>
            (df.schema.zip r).map (fun p => if p.1.1 = c then castValue dt p.2 else p.2)) }
  else .error (.columnNotFound c)

/-- A storage table: columns in creation order (stored name, storage type),
the primary-key column list fixed at creation, and the rows.  Each row is an
association list from stored column name to cell value. -/
structure Table where
  columns : List (String × TsType)
  primaryKey : List String
  rows : List (List (String × Value))
deriving DecidableEq

/-- The database: an association list from table name to table. -/
def DBState : Type := List (String × Table)

instance : DecidableEq DBState := by
  unfold DBState; infer_instance

/-- Look up a table by (normalized) name. -/
def lookupTable (n : String) (db : DBState) : Option Table :=
  (db.find? (fun p => p.1 = n)).map (·.2)

/-- Replace the first table named `n` by `f` applied to it. -/
def updateTable : DBState → String → (Table → Table) → DBState
  | [], _, _ => []
  | (m, tb) :: rest, n, f =>
    if m = n then (m, f tb) :: rest else (m, tb) :: updateTable rest n f

/-- The cell a row holds for a column, if any. -/
def assocVal (c : String) (r : List (String × Value)) : Option Value :=
  (r.find? (fun p => p.1 = c)).map (·.2)

/-- Whether a row would violate NOT NULL on primary-key column `c`:
the column is absent from the inserted columns or its cell is NULL. -/
def pkIsNull (c : String) (r : List (String × Value)) : Bool :=
  match assocVal c r with
  | some .vNull => true
  | none => true
  | some _ => false

/-- The primary-key projection of a row, used by the uniqueness check
behind `ON CONFLICT (pk) DO NOTHING`. -/
def pkProj (pk : List String) (r : List (String × Value)) : List (Option Value) :=
  pk.map (fun c => assocVal c r)

/-- `create_or_update_event_table` from `src/pipeline/db.py:120`.

Faithful shape: empty frames return immediately; the table name is
normalized again locally; the missing-primary-key check raises a
`ValueError` before any SQL runs; a missing table is created with all of
the batch's columns typed by `convert_schema_to_timescale` (the
`create_hypertable` registration is a partitioning/performance concern
with no effect on the row/column state modelled here); an existing table
gains an `ALTER TABLE ... ADD COLUMN` for every batch column whose clean
name is not among the existing columns, and nothing else.  The state
returned on success is committed (`conn.commit()` runs before the
function returns); the error paths leave the argument state untouched. -/
def create_or_update_event_table (db : DBState) (table_name : String)
    (df : DataFrame) : Except (DbError × DBState) DBState :=
  if df.is_empty then .ok db else
  let tname := normalize_table_name table_name
  let schema_columns := convert_schema_to_timescale df.schema
  let primary_key_columns := get_primary_key_columns tname
  let missing_columns := primary_key_columns.filter (fun c => c ∉ df.columns)
  if ¬ missing_columns.isEmpty then .error (.valueError missing_columns tname, db)
  else
    match lookupTable tname db with
    | none =>
        .ok ((tname,
              { columns := schema_columns.map (fun p => (cleanName p.1, p.2)),
                primaryKey := primary_key_columns.map
                  (fun c => cleanName (escape_column_name c)),
                rows := [] }) :: db)
    | some t =>
        let existing := t.columns.map Prod.fst
        let newCols := (schema_columns.filter
            (fun p => cleanName p.1 ∉ existing)).map (fun p => (cleanName p.1, p.2))
        .ok (updateTable db tname (fun tb => { tb with columns := tb.columns ++ newCols }))

/-- The `for col in primary_key_columns` cast loop of
`write_events_to_timescale` (`src/pipeline/db.py:256`). -/
def castPkColumns : List String → DataFrame → Except DbError DataFrame
  | [], df => .ok df
  | c :: cs, df =>
    if c = "block_number" then
      (castColumn df "block_number" .int64).bind (castPkColumns cs)
    else if c = "hash" then
      (castColumn df "hash" .utf8).bind (castPkColumns cs)
    else if c = "valblspubkey" then
      (castColumn df "valblspubkey" .utf8).bind (castPkColumns cs)
    else castPkColumns cs df

/-- The UInt64-to-text conversion of `write_events_to_timescale`
(`src/pipeline/db.py:266`): every UInt64 column whose lowercase name is
not a primary-key column is cast to Utf8. -/
def convertUInt64Cols (pk : List String) (df : DataFrame) : DataFrame :=
  { schema := df.schema.map (fun nd =>
      if nd.2 = .uint64 ∧ pyLower nd.1 ∉ pk then (nd.1, .utf8) else nd),
    rows := df.rows.map (fun r => (df.schema.zip r).map
      (fun p => if p.1.2 = .uint64 ∧ pyLower p.1.1 ∉ pk then castValue .utf8 p.2 else p.2)) }

/-- The records passed to `executemany`: one association list per row,
keying each cell by the stored (escaped-then-resolved) column name. -/
def dfRecords (df : DataFrame) : List (List (String × Value)) :=
  df.rows.map (fun r =>
    (df.columns.map (fun n => cleanName (escape_column_name n))).zip r)

/-- `executemany` of the `INSERT ... ON CONFLICT (pk) DO NOTHING`
statement: rows are attempted in order against the accumulated table;
a row whose primary-key projection matches an existing row is discarded,
any other row is appended.  A NULL (or absent) cell in a primary-key
column aborts the whole statement with a NOT NULL violation — the
transaction is then rolled back, so no row of the batch persists. -/
def insertManyAux (pk : List String) (acc : List (List (String × Value))) :
    List (List (String × Value)) → Except String (List (List (String × Value)))
  | [] => .ok acc
  | r :: rs =>
    match pk.find? (fun c => pkIsNull c r) with
    | some c => .error c
    | none =>
      if acc.any (fun r0 => pkProj pk r0 = pkProj pk r) then
        insertManyAux pk acc rs
      else
        insertManyAux pk (acc ++ [r]) rs

/-- `write_events_to_timescale` from `src/pipeline/db.py:231`.

Faithful shape, in source order: empty frames return immediately; the
table name is normalized; columns are renamed through
`normalize_column_name`; `block_number` is cast to Int64 (raising a
column-not-found error when absent); the missing-primary-key check
raises `ValueError`; the primary-key columns are cast; the table is
created/altered by `create_or_update_event_table`, which commits on its
own; non-key UInt64 columns are cast to Utf8; the batch is inserted with
`ON CONFLICT DO NOTHING` and committed.  An error after the DDL commit
rolls back to the committed state (which includes the DDL); an error
before it leaves the initial state. -/
def write_events_to_timescale (db : DBState) (df0 : DataFrame)
    (table_name : String) : Except (DbError × DBState) DBState :=
  if df0.is_empty then .ok db else
  let tname := normalize_table_name table_name
  let df1 := renameNormalize df0
  match castColumn df1 "block_number" .int64 with
  | .error e => .error (e, db)
  | .ok df2 =>
    let primary_key_columns := get_primary_key_columns tname
    let missing_columns := primary_key_columns.filter (fun c => c ∉ df2.columns)
    if ¬ missing_columns.isEmpty then .error (.valueError missing_columns tname, db)
    else
      match castPkColumns primary_key_columns df2 with
      | .error e => .error (e, db)
      | .ok df3 =>
        match create_or_update_event_table db tname df3 with
        | .error p => .error p
        | .ok db1 =>
          let df4 := convertUInt64Cols primary_key_columns df3
          let records := dfRecords df4
          let conflict := primary_key_columns.map
            (fun c => cleanName (escape_column_name c))
          match lookupTable tname db1 with
          | none => .error (.tableNotFound tname, db1)
          | some tb =>
            match insertManyAux conflict tb.rows records with
            | .error c => .error (.notNullViolation c, db1)
            | .ok rows1 => .ok (updateTable db1 tname (fun t => { t with rows := rows1 }))

/-- The non-null integer `block_number` cells of a table's rows — the
values `MAX(block_number)` ranges over. -/
def blockNumbers (tb : Table) : List Int :=
  tb.rows.filterMap (fun r =>
    match assocVal "block_number" r with
    | some (.vInt i) => some i
    | _ => none)

/-- `get_max_block_number` from `src/pipeline/db.py:192`: 0 when the
table is absent, otherwise `COALESCE(MAX(block_number), 0)` — the
maximum of the non-null `block_number` cells, or 0 when there is none.
Total by construction: a missing table never raises. -/
def get_max_block_number (db : DBState) (table_name : String) : Int :=
  let tname := normalize_table_name table_name
  match lookupTable tname db with
  | none => 0
  | some t => (blockNumbers t).max?.getD 0

/-- The cursor arithmetic of `process_event_config` (`src/main.py:44`):
`current_block = max(max_block, start_block)` and the fetch starts at
`current_block + 1`. -/
def process_event_config_start (db : DBState) (name : String)
    (start_block : Int) : Int :=
  let max_block := get_max_block_number db name
  let current_block := max max_block start_block
  current_block + 1

/-- A sequence of writes of batches for one stream, propagating the
first failure. -/
def writeSeq (db : DBState) (bs : List DataFrame) (t : String) :
    Except (DbError × DBState) DBState :=
  bs.foldl (fun acc df => acc.bind (fun db0 => write_events_to_timescale db0 df t)) (.ok db)

/-! ## Lemmas: state lookup and update -/

theorem lookupTable_cons_self (n : String) (tb : Table) (rest : DBState) :
    lookupTable n ((n, tb) :: rest) = some tb := by
  simp [lookupTable, List.find?_cons_of_pos]

theorem lookupTable_cons_ne (m n : String) (tb : Table) (rest : DBState)
    (h : m ≠ n) : lookupTable n ((m, tb) :: rest) = lookupTable n rest := by
  simp only [lookupTable]
  rw [List.find?_cons_of_neg]
  simpa using h

theorem lookupTable_update_self (db : DBState) (n : String) (f : Table → Table) :
    lookupTable n (updateTable db n f) = (lookupTable n db).map f := by
  induction db with
  | nil => rfl
  | cons p rest ih =>
    obtain ⟨m, tb⟩ := p
    by_cases h : m = n
    · subst h
      simp [updateTable, lookupTable, List.find?_cons_of_pos]
    · simp only [updateTable, if_neg h]
      simpa [lookupTable, List.find?_cons_of_neg, h] using ih

theorem lookupTable_update_ne (db : DBState) (n m : String) (f : Table → Table)
    (h : m ≠ n) : lookupTable m (updateTable db n f) = lookupTable m db := by
  induction db with
  | nil => rfl
  | cons p rest ih =>
    obtain ⟨k, tb⟩ := p
    by_cases hk : k = n
    · subst hk
      have : ¬ (k = m) := fun hc => h (hc ▸ rfl)
      simp [updateTable, lookupTable, List.find?_cons_of_neg, this]
    · by_cases hm : k = m
      · subst hm
        simp [updateTable, if_neg hk, lookupTable, List.find?_cons_of_pos]
      · simp only [updateTable, if_neg hk]
        simpa [lookupTable, List.find?_cons_of_neg, hm] using ih

theorem updateTable_eq_self (db : DBState) (n : String) (f : Table → Table)
    (tb : Table) (hl : lookupTable n db = some tb) (hf : f tb = tb) :
    updateTable db n f = db := by
  induction db with
  | nil => simp [lookupTable] at hl
  | cons p rest ih =>
    obtain ⟨m, tb0⟩ := p
    by_cases h : m = n
    · subst h
      simp [lookupTable, List.find?_cons_of_pos] at hl
      subst hl
      simp [updateTable, hf]
    · rw [lookupTable_cons_ne m n tb0 rest h] at hl
      simp only [updateTable, if_neg h]
      rw [ih hl]

/-! ## Lemmas: the frame stages preserve columns and row count -/

theorem castColumn_ok_columns {df df' : DataFrame} {c : String} {dt : PlDataType}
    (h : castColumn df c dt = .ok df') : df'.columns = df.columns := by
  unfold castColumn at h
  split at h
  · cases h
    simp only [DataFrame.columns, List.map_map]
    apply List.map_congr_left
    intro nd _
    by_cases hc : nd.1 = c <;> simp [hc]
  · cases h

theorem castColumn_ok_isEmpty {df df' : DataFrame} {c : String} {dt : PlDataType}
    (h : castColumn df c dt = .ok df') : df'.is_empty = df.is_empty := by
  unfold castColumn at h
  split at h
  · cases h
    simp only [DataFrame.is_empty]
    cases df.rows <;> rfl
  · cases h

theorem castPkColumns_ok_columns {cs : List String} {df df' : DataFrame}
    (h : castPkColumns cs df = .ok df') : df'.columns = df.columns := by
  induction cs generalizing df with
  | nil => cases h; rfl
  | cons c cs ih =>
    unfold castPkColumns at h
    split at h
    · match hc : castColumn df "block_number" .int64 with
      | .error e => rw [hc] at h; cases h
      | .ok dfm =>
        rw [hc] at h
        rw [ih h, castColumn_ok_columns hc]
    · split at h
      · match hc : castColumn df "hash" .utf8 with
        | .error e => rw [hc] at h; cases h
        | .ok dfm =>
          rw [hc] at h
          rw [ih h, castColumn_ok_columns hc]
      · split at h
        · match hc : castColumn df "valblspubkey" .utf8 with
          | .error e => rw [hc] at h; cases h
          | .ok dfm =>
            rw [hc] at h
            rw [ih h, castColumn_ok_columns hc]
        · exact ih h

theorem castPkColumns_ok_isEmpty {cs : List String} {df df' : DataFrame}
    (h : castPkColumns cs df = .ok df') : df'.is_empty = df.is_empty := by
  induction cs generalizing df with
  | nil => cases h; rfl
  | cons c cs ih =>
    unfold castPkColumns at h
    split at h
    · match hc : castColumn df "block_number" .int64 with
      | .error e => rw [hc] at h; cases h
      | .ok dfm =>
        rw [hc] at h
        rw [ih h, castColumn_ok_isEmpty hc]
    · split at h
      · match hc : castColumn df "hash" .utf8 with
        | .error e => rw [hc] at h; cases h
        | .ok dfm =>
          rw [hc] at h
          rw [ih h, castColumn_ok_isEmpty hc]
      · split at h
        · match hc : castColumn df "valblspubkey" .utf8 with
          | .error e => rw [hc] at h; cases h
          | .ok dfm =>
            rw [hc] at h
            rw [ih h, castColumn_ok_isEmpty hc]
        · exact ih h

theorem convertUInt64Cols_columns (pk : List String) (df : DataFrame) :
    (convertUInt64Cols pk df).columns = df.columns := by
  simp only [convertUInt64Cols, DataFrame.columns, List.map_map]
  apply List.map_congr_left
  intro nd _
  by_cases hc : nd.2 = PlDataType.uint64 ∧ pyLower nd.1 ∉ pk <;> simp [hc]

theorem convertUInt64Cols_isEmpty (pk : List String) (df : DataFrame) :
    (convertUInt64Cols pk df).is_empty = df.is_empty := by
  simp only [convertUInt64Cols, DataFrame.is_empty]
  cases df.rows <;> rfl

theorem renameNormalize_columns (df : DataFrame) :
    (renameNormalize df).columns = df.columns.map normalize_column_name := by
  simp [renameNormalize, DataFrame.columns, List.map_map]

theorem renameNormalize_isEmpty (df : DataFrame) :
    (renameNormalize df).is_empty = df.is_empty := rfl

/-! ## Lemmas: insert-or-ignore -/

theorem insertManyAux_ok_append {pk : List String}
    {acc out : List (List (String × Value))} {rs : List (List (String × Value))}
    (h : insertManyAux pk acc rs = .ok out) : ∃ ex, out = acc ++ ex := by
  induction rs generalizing acc with
  | nil => cases h; exact ⟨[], by simp⟩
  | cons r rs ih =>
    unfold insertManyAux at h
    split at h
    · cases h
    · split at h
      · exact ih h
      · obtain ⟨ex, hex⟩ := ih h
        exact ⟨r :: ex, by simp [hex]⟩

theorem insertManyAux_ok_props {pk : List String}
    {acc out : List (List (String × Value))} {rs : List (List (String × Value))}
    (h : insertManyAux pk acc rs = .ok out) :
    ∀ r ∈ rs, pk.find? (fun c => pkIsNull c r) = none ∧
      ∃ r0 ∈ out, pkProj pk r0 = pkProj pk r := by
  induction rs generalizing acc with
  | nil => intro r hr; cases hr
  | cons r rs ih =>
    unfold insertManyAux at h
    split at h
    · cases h
    · rename_i hfind
      intro r' hr'
      rcases List.mem_cons.mp hr' with hhead | htail
      · subst hhead
        refine ⟨hfind, ?_⟩
        split at h
        · rename_i hconf
          obtain ⟨r0, hr0, hpr⟩ := List.any_eq_true.mp hconf
          obtain ⟨ex, hex⟩ := insertManyAux_ok_append h
          exact ⟨r0, by simp [hex, hr0], of_decide_eq_true hpr⟩
        · obtain ⟨ex, hex⟩ := insertManyAux_ok_append h
          refine ⟨r', ?_, rfl⟩
          simp [hex]
      · split at h
        · exact ih h r' htail
        · exact ih h r' htail

theorem insertManyAux_stable (pk : List String)
    (acc : List (List (String × Value))) (rs : List (List (String × Value)))
    (hrs : ∀ r ∈ rs, pk.find? (fun c => pkIsNull c r) = none ∧
      ∃ r0 ∈ acc, pkProj pk r0 = pkProj pk r) :
    insertManyAux pk acc rs = .ok acc := by
  induction rs with
  | nil => rfl
  | cons r rs ih =>
    obtain ⟨hn, r0, hr0, hpr⟩ := hrs r (List.mem_cons_self r rs)
    unfold insertManyAux
    rw [hn]
    have hconf : acc.any (fun r1 => pkProj pk r1 = pkProj pk r) = true :=
      List.any_eq_true.mpr ⟨r0, hr0, decide_eq_true hpr⟩
    rw [if_pos hconf]
    exact ih (fun r' hr' => hrs r' (List.mem_cons_of_mem r hr'))

/-! ## Observations on the database state -/

/-- The rows of a table, `[]` when the table is absent. -/
def tableRowsOf (db : DBState) (n : String) : List (List (String × Value)) :=
  match lookupTable n db with
  | none => []
  | some t => t.rows

/-- The columns of a table, `[]` when the table is absent. -/
def tableColsOf (db : DBState) (n : String) : List (String × TsType) :=
  match lookupTable n db with
  | none => []
  | some t => t.columns

/-- The stored column name a raw batch column ends up with: normalized by
the writer, escaped for SQL, resolved by the server. -/
def storedColumnName (m : String) : String :=
  cleanName (escape_column_name (normalize_column_name m))

/-! ## Lemmas: create_or_update_event_table -/


theorem exists_lookup_update (db : DBState) (n : String) (f : Table → Table)
    (t0 : Table) (hlook : lookupTable n db = some t0) (P : Table → Prop)
    (hP : P (f t0)) :
    ∃ tb, lookupTable n (updateTable db n f) = some tb ∧ P tb := by
  refine ⟨f t0, ?_, hP⟩
  rw [lookupTable_update_self, hlook]
  rfl

theorem create_or_update_ok_lookup {db db' : DBState} {t : String} {df : DataFrame}
    (h : create_or_update_event_table db t df = .ok db')
    (hne : df.is_empty = false) :
    ∃ tb, lookupTable (normalize_table_name t) db' = some tb ∧
      ∀ p ∈ convert_schema_to_timescale df.schema,
        cleanName p.1 ∈ tb.columns.map Prod.fst := by
  simp only [create_or_update_event_table, hne, Bool.false_eq_true, if_false] at h
  split at h
  · cases h
  · split at h
    · rename_i hlook
      cases h
      refine ⟨_, lookupTable_cons_self _ _ _, ?_⟩
      intro p hp
      simp only [List.map_map]
      exact List.mem_map.mpr ⟨p, hp, rfl⟩
    · rename_i t0 hlook
      cases h
      apply exists_lookup_update _ _ _ t0 hlook
      intro p hp
      by_cases hex : cleanName p.1 ∈ t0.columns.map Prod.fst
      · simp only [List.map_append]
        exact List.mem_append_left _ hex
      · simp only [List.map_append]
        refine List.mem_append_right _ ?_
        simp only [List.map_map]
        refine List.mem_map.mpr ⟨p, ?_, rfl⟩
        exact List.mem_filter.mpr ⟨hp, by simpa using hex⟩

theorem create_or_update_noop {db : DBState} {t : String} {df : DataFrame} {tb : Table}
    (hne : df.is_empty = false)
    (hmiss : ((get_primary_key_columns (normalize_table_name t)).filter
      (fun c => c ∉ df.columns)).isEmpty = true)
    (hlook : lookupTable (normalize_table_name t) db = some tb)
    (hcols : ∀ p ∈ convert_schema_to_timescale df.schema,
      cleanName p.1 ∈ tb.columns.map Prod.fst) :
    create_or_update_event_table db t df = .ok db := by
  unfold create_or_update_event_table
  rw [hne]
  simp only [Bool.false_eq_true, if_false, hmiss, not_true, if_neg, hlook]
  have hfilter : (convert_schema_to_timescale df.schema).filter
      (fun p => cleanName p.1 ∉ tb.columns.map Prod.fst) = [] := by
    rw [List.filter_eq_nil_iff]
    intro p hp
    simpa using hcols p hp
  rw [hfilter]
  simp only [List.map_nil]
  rw [updateTable_eq_self db _ _ tb hlook (by simp)]

theorem tableRowsOf_eq_some {db : DBState} {n : String} {tb : Table}
    (h : lookupTable n db = some tb) : tableRowsOf db n = tb.rows := by
  simp [tableRowsOf, h]

theorem tableRowsOf_eq_none {db : DBState} {n : String}
    (h : lookupTable n db = none) : tableRowsOf db n = [] := by
  simp [tableRowsOf, h]

theorem tableColsOf_eq_some {db : DBState} {n : String} {tb : Table}
    (h : lookupTable n db = some tb) : tableColsOf db n = tb.columns := by
  simp [tableColsOf, h]

theorem tableColsOf_eq_none {db : DBState} {n : String}
    (h : lookupTable n db = none) : tableColsOf db n = [] := by
  simp [tableColsOf, h]

theorem tableRowsOf_cons_ne {m n : String} (tb : Table) (rest : DBState)
    (h : m ≠ n) : tableRowsOf ((m, tb) :: rest) n = tableRowsOf rest n := by
  simp only [tableRowsOf, lookupTable_cons_ne _ _ _ _ h]

theorem tableRowsOf_update_ne (db : DBState) {m n : String} (f : Table → Table)
    (h : n ≠ m) : tableRowsOf (updateTable db m f) n = tableRowsOf db n := by
  simp only [tableRowsOf, lookupTable_update_ne _ _ _ _ h]

theorem tableColsOf_cons_ne {m n : String} (tb : Table) (rest : DBState)
    (h : m ≠ n) : tableColsOf ((m, tb) :: rest) n = tableColsOf rest n := by
  simp only [tableColsOf, lookupTable_cons_ne _ _ _ _ h]

theorem tableColsOf_update_ne (db : DBState) {m n : String} (f : Table → Table)
    (h : n ≠ m) : tableColsOf (updateTable db m f) n = tableColsOf db n := by
  simp only [tableColsOf, lookupTable_update_ne _ _ _ _ h]

theorem create_or_update_ok_rows {db db' : DBState} {t : String} {df : DataFrame}
    (h : create_or_update_event_table db t df = .ok db') :
    ∀ n, tableRowsOf db' n = tableRowsOf db n := by
  simp only [create_or_update_event_table] at h
  split at h
  · cases h; intro n; rfl
  · split at h
    · cases h
    · split at h
      · rename_i hlook
        cases h
        intro n
        by_cases hn : normalize_table_name t = n
        · subst hn
          rw [tableRowsOf_eq_some (lookupTable_cons_self _ _ _),
            tableRowsOf_eq_none hlook]
        · rw [tableRowsOf_cons_ne _ _ hn]
      · rename_i t0 hlook
        cases h
        intro n
        by_cases hn : n = normalize_table_name t
        · subst hn
          rw [tableRowsOf_eq_some (by rw [lookupTable_update_self, hlook]; rfl),
            tableRowsOf_eq_some hlook]
        · rw [tableRowsOf_update_ne _ _ hn]

theorem create_or_update_cols_super {db db' : DBState} {t : String} {df : DataFrame}
    (h : create_or_update_event_table db t df = .ok db') :
    ∀ n, ∀ p ∈ tableColsOf db n, p ∈ tableColsOf db' n := by
  simp only [create_or_update_event_table] at h
  split at h
  · cases h; intro n p hp; exact hp
  · split at h
    · cases h
    · split at h
      · rename_i hlook
        cases h
        intro n p hp
        by_cases hn : normalize_table_name t = n
        · subst hn
          rw [tableColsOf_eq_none hlook] at hp
          cases hp
        · rw [tableColsOf_cons_ne _ _ hn]
          exact hp
      · rename_i t0 hlook
        cases h
        intro n p hp
        by_cases hn : n = normalize_table_name t
        · subst hn
          rw [tableColsOf_eq_some hlook] at hp
          rw [tableColsOf_eq_some (by rw [lookupTable_update_self, hlook]; rfl)]
          exact List.mem_append_left _ hp
        · rw [tableColsOf_update_ne _ _ hn]
          exact hp

theorem create_or_update_cols_other {db db' : DBState} {t : String} {df : DataFrame}
    (h : create_or_update_event_table db t df = .ok db') :
    ∀ n, n ≠ normalize_table_name t → tableColsOf db' n = tableColsOf db n := by
  simp only [create_or_update_event_table] at h
  split at h
  · cases h; intro n _; rfl
  · split at h
    · cases h
    · split at h
      · cases h
        intro n hn
        exact tableColsOf_cons_ne _ _ (fun hc => hn hc.symm)
      · cases h
        intro n hn
        exact tableColsOf_update_ne _ _ hn

theorem create_or_update_cols_names {db db' : DBState} {t : String} {df : DataFrame}
    (h : create_or_update_event_table db t df = .ok db')
    (hne : df.is_empty = false) :
    ∀ c, c ∈ (tableColsOf db' (normalize_table_name t)).map Prod.fst ↔
      (c ∈ (tableColsOf db (normalize_table_name t)).map Prod.fst ∨
       c ∈ (convert_schema_to_timescale df.schema).map (fun p => cleanName p.1)) := by
  simp only [create_or_update_event_table, hne, Bool.false_eq_true, if_false] at h
  split at h
  · cases h
  · split at h
    · rename_i hlook
      cases h
      intro c
      rw [tableColsOf_eq_some (lookupTable_cons_self _ _ _), tableColsOf_eq_none hlook,
        List.map_map]
      constructor
      · intro hc
        obtain ⟨p, hp, hpc⟩ := List.mem_map.mp hc
        exact Or.inr (List.mem_map.mpr ⟨p, hp, hpc⟩)
      · rintro (hc | hc)
        · cases hc
        · obtain ⟨p, hp, hpc⟩ := List.mem_map.mp hc
          exact List.mem_map.mpr ⟨p, hp, hpc⟩
    · rename_i t0 hlook
      cases h
      intro c
      rw [tableColsOf_eq_some (by rw [lookupTable_update_self, hlook]; rfl),
        tableColsOf_eq_some hlook]
      constructor
      · intro hc
        rw [List.map_append] at hc
        rcases List.mem_append.mp hc with hc | hc
        · exact Or.inl hc
        · rw [List.map_map] at hc
          obtain ⟨p, hp, hpc⟩ := List.mem_map.mp hc
          exact Or.inr (List.mem_map.mpr ⟨p, (List.mem_filter.mp hp).1, hpc⟩)
      · rintro (hc | hc)
        · rw [List.map_append]
          exact List.mem_append_left _ hc
        · obtain ⟨p, hp, hpc⟩ := List.mem_map.mp hc
          rw [List.map_append]
          by_cases hex : c ∈ t0.columns.map Prod.fst
          · exact List.mem_append_left _ hex
          · refine List.mem_append_right _ ?_
            rw [List.map_map]
            refine List.mem_map.mpr ⟨p, List.mem_filter.mpr ⟨hp, ?_⟩, hpc⟩
            have hpc2 : cleanName p.1 = c := hpc
            rw [hpc2]
            exact decide_eq_true hex

theorem create_or_update_error_state {db db' : DBState} {t : String}
    {df : DataFrame} {e : DbError}
    (h : create_or_update_event_table db t df = .error (e, db')) : db' = db := by
  simp only [create_or_update_event_table] at h
  split at h
  · cases h
  · split at h
    · cases h; rfl
    · split at h <;> cases h

/-- On any failing write, no row insert persists: every table's rows in the
error state equal its rows in the initial state.  (Schema changes committed
by `create_or_update_event_table` before the failure do persist; see the
C2 analysis below.) -/
theorem write_error_rows {db db' : DBState} {df : DataFrame} {t : String}
    {e : DbError}
    (h : write_events_to_timescale db df t = .error (e, db')) :
    ∀ n, tableRowsOf db' n = tableRowsOf db n := by
  simp only [write_events_to_timescale] at h
  split at h
  · cases h
  · split at h
    · cases h; intro n; rfl
    · split at h
      · cases h; intro n; rfl
      · split at h
        · cases h; intro n; rfl
        · split at h
          · rename_i p hcu
            cases h
            have hdb := create_or_update_error_state hcu
            rw [hdb]
            intro n; rfl
          · rename_i dbA hcu
            split at h
            · cases h
              exact create_or_update_ok_rows hcu
            · rename_i tb hlk
              split at h
              · cases h
                exact create_or_update_ok_rows hcu
              · cases h

/-- **C1**: for every stream and every batch whose write succeeds, writing
the same batch again succeeds and leaves the database state unchanged
(every row of the second write hits the primary-key conflict and is
discarded), and the first write only ever appends rows — it never modifies
or removes an already-stored row of any table. -/
theorem write_twice_eq_write_once (db db1 : DBState) (df : DataFrame)
    (t : String) (ht : normalize_table_name t = t)
    (h : write_events_to_timescale db df t = .ok db1) :
    write_events_to_timescale db1 df t = .ok db1 ∧
    ∀ n, ∃ appended, tableRowsOf db1 n = tableRowsOf db n ++ appended := by
  by_cases hemp : df.is_empty = true
  · simp only [write_events_to_timescale, hemp, if_true] at h
    cases h
    constructor
    · simp only [write_events_to_timescale, hemp, if_true]
    · exact fun n => ⟨[], by simp⟩
  · have hne : df.is_empty = false := by simpa using hemp
    simp only [write_events_to_timescale, ht, hne, Bool.false_eq_true, if_false] at h
    split at h
    · cases h
    · rename_i df2 hc2
      split at h
      · cases h
      · rename_i hmiss
        split at h
        · cases h
        · rename_i df3 hc3
          split at h
          · cases h
          · rename_i dbA hcu
            split at h
            · cases h
            · rename_i tb hlk
              split at h
              · cases h
              · rename_i rows1 hins
                cases h
                have hne1 : (renameNormalize df).is_empty = false := by
                  rw [renameNormalize_isEmpty]; exact hne
                have hne2 : df2.is_empty = false := by
                  rw [castColumn_ok_isEmpty hc2]; exact hne1
                have hne3 : df3.is_empty = false := by
                  rw [castPkColumns_ok_isEmpty hc3]; exact hne2
                have hmiss2 : ((get_primary_key_columns t).filter
                    (fun c => c ∉ df2.columns)).isEmpty = true := by
                  simpa using hmiss
                obtain ⟨tbA, hlkA, hcands⟩ := create_or_update_ok_lookup hcu hne3
                rw [ht] at hlkA
                have htb : tbA = tb := by
                  rw [hlkA] at hlk; exact Option.some_inj.mp hlk
                rw [htb] at hcands
                have hlkN : lookupTable t
                    (updateTable dbA t (fun t0 => { t0 with rows := rows1 })) =
                    some { tb with rows := rows1 } := by
                  rw [lookupTable_update_self, hlk]; rfl
                have hnoop : create_or_update_event_table
                    (updateTable dbA t (fun t0 => { t0 with rows := rows1 })) t df3 =
                    .ok (updateTable dbA t (fun t0 => { t0 with rows := rows1 })) := by
                  refine @create_or_update_noop _ _ _ ({ tb with rows := rows1 }) hne3 ?_ ?_ ?_
                  · rw [ht, castPkColumns_ok_columns hc3]
                    exact hmiss2
                  · rw [ht]
                    exact hlkN
                  · exact hcands
                have hstab : insertManyAux
                    ((get_primary_key_columns t).map
                      (fun c => cleanName (escape_column_name c)))
                    rows1 (dfRecords (convertUInt64Cols (get_primary_key_columns t) df3)) =
                    .ok rows1 :=
                  insertManyAux_stable _ _ _ (insertManyAux_ok_props hins)
                have hfinal : updateTable
                    (updateTable dbA t (fun t0 => { t0 with rows := rows1 })) t
                    (fun t0 => { t0 with rows := rows1 }) =
                    updateTable dbA t (fun t0 => { t0 with rows := rows1 }) :=
                  updateTable_eq_self _ _ _ _ hlkN rfl
                constructor
                · simp only [write_events_to_timescale, ht, hne, Bool.false_eq_true,
                    if_false, hc2, hmiss2, not_true, if_neg, hc3, hnoop, hlkN, hstab,
                    hfinal]
                · intro n
                  by_cases hn : n = t
                  · subst hn
                    obtain ⟨ex, hex⟩ := insertManyAux_ok_append hins
                    refine ⟨ex, ?_⟩
                    rw [tableRowsOf_eq_some hlkN]
                    have hbase : tableRowsOf dbA n = tableRowsOf db n :=
                      create_or_update_ok_rows hcu n
                    rw [tableRowsOf_eq_some hlk] at hbase
                    rw [show ({ tb with rows := rows1 } : Table).rows = rows1 from rfl,
                      hex, hbase]
                  · refine ⟨[], ?_⟩
                    rw [List.append_nil, tableRowsOf_update_ne _ _ hn,
                      create_or_update_ok_rows hcu n]

theorem tableColsOf_update_rows (db : DBState) (m : String)
    (g : Table → List (List (String × Value))) :
    ∀ n, tableColsOf (updateTable db m (fun tb => { tb with rows := g tb })) n =
      tableColsOf db n := by
  intro n
  by_cases hn : n = m
  · subst hn
    cases hlk : lookupTable n db with
    | none =>
      rw [tableColsOf_eq_none hlk, tableColsOf_eq_none]
      rw [lookupTable_update_self, hlk]
      rfl
    | some tb =>
      rw [tableColsOf_eq_some hlk, tableColsOf_eq_some
        (by rw [lookupTable_update_self, hlk]; rfl)]
  · rw [tableColsOf_update_ne _ _ hn]

theorem conv_names (s : List (String × PlDataType)) :
    (convert_schema_to_timescale s).map (fun p => cleanName p.1) =
      (s.map Prod.fst).map (fun n => cleanName (escape_column_name n)) := by
  simp only [convert_schema_to_timescale, List.map_map]
  apply List.map_congr_left
  intro nd _
  rfl

/-- Column names a successful non-empty write leaves on the stream's table:
exactly the old names plus the batch's stored column names. -/
theorem write_ok_cols_names {db db' : DBState} {df : DataFrame} {t : String}
    (ht : normalize_table_name t = t)
    (hne : df.is_empty = false)
    (h : write_events_to_timescale db df t = .ok db') :
    ∀ c, c ∈ (tableColsOf db' t).map Prod.fst ↔
      (c ∈ (tableColsOf db t).map Prod.fst ∨
       c ∈ df.columns.map storedColumnName) := by
  simp only [write_events_to_timescale, ht, hne, Bool.false_eq_true, if_false] at h
  split at h
  · cases h
  · rename_i df2 hc2
    split at h
    · cases h
    · rename_i hmiss
      split at h
      · cases h
      · rename_i df3 hc3
        split at h
        · cases h
        · rename_i dbA hcu
          split at h
          · cases h
          · rename_i tb hlk
            split at h
            · cases h
            · rename_i rows1 hins
              cases h
              have hne1 : (renameNormalize df).is_empty = false := by
                rw [renameNormalize_isEmpty]; exact hne
              have hne2 : df2.is_empty = false := by
                rw [castColumn_ok_isEmpty hc2]; exact hne1
              have hne3 : df3.is_empty = false := by
                rw [castPkColumns_ok_isEmpty hc3]; exact hne2
              intro c
              rw [tableColsOf_update_rows dbA t (fun _ => rows1) t]
              have hiff := create_or_update_cols_names hcu hne3 c
              rw [ht] at hiff
              rw [hiff]
              have hcols : (convert_schema_to_timescale df3.schema).map
                  (fun p => cleanName p.1) = df.columns.map storedColumnName := by
                rw [conv_names]
                have : df3.columns = df.columns.map normalize_column_name := by
                  rw [castPkColumns_ok_columns hc3, castColumn_ok_columns hc2,
                    renameNormalize_columns]
                rw [show df3.schema.map Prod.fst = df3.columns from rfl, this,
                  List.map_map]
                rfl
              rw [hcols]

/-- A successful write never removes or retypes a column of any table. -/
theorem write_ok_cols_super {db db' : DBState} {df : DataFrame} {t : String}
    (h : write_events_to_timescale db df t = .ok db') :
    ∀ n, ∀ p ∈ tableColsOf db n, p ∈ tableColsOf db' n := by
  simp only [write_events_to_timescale] at h
  split at h
  · cases h; intro n p hp; exact hp
  · split at h
    · cases h
    · split at h
      · cases h
      · split at h
        · cases h
        · split at h
          · cases h
          · rename_i dbA hcu
            split at h
            · cases h
            · rename_i tb hlk
              split at h
              · cases h
              · rename_i rows1 hins
                cases h
                intro n p hp
                rw [tableColsOf_update_rows dbA _ (fun _ => rows1) n]
                exact create_or_update_cols_super hcu n p hp

/-- A write touches no table other than the stream's own. -/
theorem write_ok_cols_other {db db' : DBState} {df : DataFrame} {t : String}
    (ht : normalize_table_name t = t)
    (h : write_events_to_timescale db df t = .ok db') :
    ∀ n, n ≠ t → tableColsOf db' n = tableColsOf db n := by
  simp only [write_events_to_timescale, ht] at h
  split at h
  · cases h; intro n _; rfl
  · split at h
    · cases h
    · split at h
      · cases h
      · split at h
        · cases h
        · split at h
          · cases h
          · rename_i dbA hcu
            split at h
            · cases h
            · rename_i tb hlk
              split at h
              · cases h
              · rename_i rows1 hins
                cases h
                intro n hn
                rw [tableColsOf_update_rows dbA _ (fun _ => rows1) n]
                have := create_or_update_cols_other hcu n
                rw [ht] at this
                exact this hn

/-! ## Lemmas: sequences of writes -/

theorem foldl_writeStep_error (bs : List DataFrame) (t : String)
    (p : DbError × DBState) :
    bs.foldl (fun (acc : Except (DbError × DBState) DBState) df => acc.bind
      (fun db0 => write_events_to_timescale db0 df t)) (.error p) = .error p := by
  induction bs with
  | nil => rfl
  | cons df bs ih => exact ih

theorem writeSeq_cons (db : DBState) (df : DataFrame) (bs : List DataFrame)
    (t : String) :
    writeSeq db (df :: bs) t =
      match write_events_to_timescale db df t with
      | .ok db0 => writeSeq db0 bs t
      | .error p => .error p := by
  show bs.foldl _ ((Except.ok db).bind _) = _
  cases hw : write_events_to_timescale db df t with
  | ok db0 =>
    show bs.foldl _ (write_events_to_timescale db df t) = _
    rw [hw]
    rfl
  | error p =>
    show bs.foldl _ (write_events_to_timescale db df t) = _
    rw [hw]
    exact foldl_writeStep_error bs t p

theorem writeSeq_append (db : DBState) (bs1 bs2 : List DataFrame) (t : String) :
    writeSeq db (bs1 ++ bs2) t =
      match writeSeq db bs1 t with
      | .ok d => writeSeq d bs2 t
      | .error p => .error p := by
  show (bs1 ++ bs2).foldl _ (Except.ok db) = _
  rw [List.foldl_append]
  cases h1 : writeSeq db bs1 t with
  | ok d =>
    show bs2.foldl _ (writeSeq db bs1 t) = _
    rw [h1]
    rfl
  | error p =>
    show bs2.foldl _ (writeSeq db bs1 t) = _
    rw [h1]
    exact foldl_writeStep_error bs2 t p

theorem writeSeq_cols_names {bs : List DataFrame} {db db' : DBState} {t : String}
    (ht : normalize_table_name t = t)
    (hne : ∀ df ∈ bs, df.is_empty = false)
    (h : writeSeq db bs t = .ok db') :
    ∀ c, c ∈ (tableColsOf db' t).map Prod.fst ↔
      (c ∈ (tableColsOf db t).map Prod.fst ∨
       ∃ df ∈ bs, c ∈ df.columns.map storedColumnName) := by
  induction bs generalizing db with
  | nil =>
    cases h
    intro c
    simp
  | cons df bs ih =>
    rw [writeSeq_cons] at h
    split at h
    · rename_i db0 hw
      intro c
      have h1 := write_ok_cols_names ht (hne df (List.mem_cons_self df bs)) hw c
      have h2 := ih (fun df' hdf' => hne df' (List.mem_cons_of_mem df hdf')) h c
      rw [h2, h1]
      constructor
      · rintro ((hc | hc) | ⟨df1, hdf1, hc⟩)
        · exact Or.inl hc
        · exact Or.inr ⟨df, List.mem_cons_self df bs, hc⟩
        · exact Or.inr ⟨df1, List.mem_cons_of_mem df hdf1, hc⟩
      · rintro (hc | ⟨df1, hdf1, hc⟩)
        · exact Or.inl (Or.inl hc)
        · rcases List.mem_cons.mp hdf1 with rfl | hdf1
          · exact Or.inl (Or.inr hc)
          · exact Or.inr ⟨df1, hdf1, hc⟩
    · cases h

theorem writeSeq_cols_super {bs : List DataFrame} {db db' : DBState} {t : String}
    (h : writeSeq db bs t = .ok db') :
    ∀ n, ∀ p ∈ tableColsOf db n, p ∈ tableColsOf db' n := by
  induction bs generalizing db with
  | nil => cases h; intro n p hp; exact hp
  | cons df bs ih =>
    rw [writeSeq_cons] at h
    split at h
    · rename_i db0 hw
      intro n p hp
      exact ih h n p (write_ok_cols_super hw n p hp)
    · cases h

/-- **C3**: starting from a database where the stream's table does not yet
exist, after any successful sequence of non-empty batch writes the table's
column-name set is exactly the union of the stored column names of all
batches seen, and every (name, storage type) column pair present after an
earlier prefix of the writes is still present, with the same storage type,
at the end — columns are never removed or retyped. -/
theorem schema_union_ratchet (db db' : DBState) (bs : List DataFrame)
    (t : String) (ht : normalize_table_name t = t)
    (hfresh : lookupTable t db = none)
    (hne : ∀ df ∈ bs, df.is_empty = false)
    (h : writeSeq db bs t = .ok db') :
    (∀ c, c ∈ (tableColsOf db' t).map Prod.fst ↔
       ∃ df ∈ bs, c ∈ df.columns.map storedColumnName) ∧
    (∀ bs1 bs2 dbMid, bs = bs1 ++ bs2 → writeSeq db bs1 t = .ok dbMid →
       ∀ p ∈ tableColsOf dbMid t, p ∈ tableColsOf db' t) := by
  constructor
  · intro c
    have hiff := writeSeq_cols_names ht hne h c
    rw [tableColsOf_eq_none hfresh] at hiff
    simpa using hiff
  · intro bs1 bs2 dbMid hsplit hmid
    subst hsplit
    rw [writeSeq_append] at h
    rw [hmid] at h
    exact writeSeq_cols_super h t

/-! ## C2: atomicity of a batch write -/

/-- An existing two-column `evts` table with no rows. -/
def dbAtomicity : DBState :=
  [("evts",
    { columns := [("block_number", .bigint), ("hash", .text)],
      primaryKey := ["block_number", "hash"],
      rows := [] })]

/-- A batch introducing the unseen column `extra`, whose single row carries
a NULL in the primary-key column `hash`, so its insert fails after the
schema alteration has been committed. -/
def dfAtomicity : DataFrame :=
  { schema := [("block_number", .int64), ("hash", .utf8), ("extra", .int64)],
    rows := [[.vInt 1, .vNull, .vInt 5]] }

/-- The state the failed write leaves behind: the `extra` column addition
persisted, no row was inserted. -/
def dbAtomicityPost : DBState :=
  [("evts",
    { columns := [("block_number", .bigint), ("hash", .text), ("extra", .bigint)],
      primaryKey := ["block_number", "hash"],
      rows := [] })]

/-- **C2 counterexample**: a write whose insert fails does propagate the
error, but the batch is not rolled back as one unit: the schema alteration
(`ALTER TABLE ... ADD COLUMN extra`) was committed by
`create_or_update_event_table` (src/pipeline/db.py:186) before the insert
ran, so the column addition persists in the post-failure state, which
therefore differs from the initial state. -/
theorem write_not_atomic_counterexample :
    write_events_to_timescale dbAtomicity dfAtomicity "evts" =
      .error (.notNullViolation "hash", dbAtomicityPost) ∧
    dbAtomicityPost ≠ dbAtomicity ∧
    ("extra", TsType.bigint) ∈ tableColsOf dbAtomicityPost "evts" ∧
    ("extra", TsType.bigint) ∉ tableColsOf dbAtomicity "evts" := by decide

/-- **C2 (amended)**: on any failing write the error is propagated to the
caller and no row insert persists — every table's rows in the propagated
post-failure state equal its rows in the initial state.  (Table creation
and column additions, however, are committed separately before the insert
and are not rolled back; see `write_not_atomic_counterexample`.) -/
theorem write_failure_no_row_persists (db db' : DBState) (df : DataFrame)
    (t : String) (e : DbError)
    (h : write_events_to_timescale db df t = .error (e, db')) :
    ∀ n, tableRowsOf db' n = tableRowsOf db n :=
  write_error_rows h

theorem write_failure_no_row_persists_witness :
    tableRowsOf dbAtomicityPost "evts" = tableRowsOf dbAtomicity "evts" :=
  write_failure_no_row_persists dbAtomicity dbAtomicityPost dfAtomicity "evts"
    (.notNullViolation "hash") (by decide) "evts"

/-! ## C4: rejection of a batch missing a primary-key column -/

/-- A non-empty batch lacking the primary-key column `block_number`. -/
def dfMissingBn : DataFrame :=
  { schema := [("hash", .utf8)], rows := [[.vStr "a"]] }

/-- A non-empty batch lacking the primary-key column `hash`. -/
def dfMissingHash : DataFrame :=
  { schema := [("block_number", .int64)], rows := [[.vInt 1]] }

/-- **C4 counterexample**: a non-empty batch lacking the declared
primary-key column `block_number` does fail before anything is written,
but not with the claimed `ValueError` naming the missing columns: the
`block_number` cast at src/pipeline/db.py:243 runs before the
missing-primary-key check at src/pipeline/db.py:249 and raises the Polars
column-not-found error instead. -/
theorem missing_block_number_not_valueerror :
    write_events_to_timescale [] dfMissingBn "evts" =
      .error (.columnNotFound "block_number", []) ∧
    DbError.columnNotFound "block_number" ≠
      DbError.valueError ["block_number"] "evts" := by decide

/-- **C4 (amended)**: for every stream and non-empty batch lacking at least
one declared primary-key column, the whole write fails before any row is
inserted and before any schema change, leaving the database untouched; the
error is the `ValueError` naming the missing columns whenever
`block_number` itself is present, and the Polars column-not-found error for
`block_number` otherwise. -/
theorem missing_pk_rejected (db : DBState) (df : DataFrame) (t : String)
    (ht : normalize_table_name t = t)
    (hne : df.is_empty = false)
    (hmiss : ∃ c ∈ get_primary_key_columns t, c ∉ (renameNormalize df).columns) :
    write_events_to_timescale db df t =
      .error
        ((if "block_number" ∈ (renameNormalize df).columns then
            DbError.valueError ((get_primary_key_columns t).filter
              (fun c => c ∉ (renameNormalize df).columns)) t
          else DbError.columnNotFound "block_number"), db) := by
  simp only [write_events_to_timescale, ht, hne, Bool.false_eq_true, if_false]
  by_cases hbn : "block_number" ∈ (renameNormalize df).columns
  · have hc2 : castColumn (renameNormalize df) "block_number" .int64 =
        .ok { schema := (renameNormalize df).schema.map
                (fun nd => if nd.1 = "block_number" then (nd.1, .int64) else nd),
              rows := (renameNormalize df).rows.map (fun r =>
                ((renameNormalize df).schema.zip r).map
                  (fun p => if p.1.1 = "block_number" then castValue .int64 p.2 else p.2)) } := by
      rw [castColumn, if_pos hbn]
    simp only [hc2]
    have hcols := castColumn_ok_columns hc2
    obtain ⟨c, hcpk, hcnot⟩ := hmiss
    have hcmem : c ∈ (get_primary_key_columns t).filter
        (fun c => c ∉ (renameNormalize df).columns) :=
      List.mem_filter.mpr ⟨hcpk, decide_eq_true hcnot⟩
    have hfne : ¬ ((get_primary_key_columns t).filter
        (fun c0 => c0 ∉ (renameNormalize df).columns)).isEmpty = true := by
      intro hc
      rw [List.isEmpty_iff] at hc
      rw [hc] at hcmem
      cases hcmem
    simp only [hcols]
    rw [if_pos hfne, if_pos hbn]
  · have hc2 : castColumn (renameNormalize df) "block_number" .int64 =
        .error (.columnNotFound "block_number") := by
      rw [castColumn, if_neg hbn]
    simp only [hc2]
    rw [if_neg hbn]

theorem missing_pk_rejected_witness :
    write_events_to_timescale [] dfMissingHash "evts" =
      .error (.valueError ["hash"] "evts", []) := by
  rw [missing_pk_rejected [] dfMissingHash "evts" (by decide) (by decide)
    ⟨"hash", by decide, by decide⟩]
  decide

/-! ## Witness material for C1 and C3 -/

/-- A small batch for the idempotence witness. -/
def dfIdem : DataFrame :=
  { schema := [("block_number", .int64), ("hash", .utf8)],
    rows := [[.vInt 1, .vStr "a"]] }

/-- The state a first write of `dfIdem` produces from an empty database. -/
def dbIdem : DBState :=
  [("evts",
    { columns := [("block_number", .bigint), ("hash", .text)],
      primaryKey := ["block_number", "hash"],
      rows := [[("block_number", .vInt 1), ("hash", .vStr "a")]] })]

theorem write_twice_eq_write_once_witness :
    write_events_to_timescale dbIdem dfIdem "evts" = .ok dbIdem ∧
    ∀ n, ∃ appended, tableRowsOf dbIdem n = tableRowsOf ([] : DBState) n ++ appended :=
  write_twice_eq_write_once [] dbIdem dfIdem "evts" (by decide) (by decide)

/-- First batch of the schema-growth witness. -/
def dfSeqA : DataFrame :=
  { schema := [("block_number", .int64), ("hash", .utf8)],
    rows := [[.vInt 1, .vStr "a"]] }

/-- Second batch of the schema-growth witness: introduces the wide unsigned
column `extra`. -/
def dfSeqB : DataFrame :=
  { schema := [("block_number", .int64), ("hash", .utf8), ("extra", .uint64)],
    rows := [[.vInt 2, .vStr "b", .vInt 7]] }

/-- The state after writing `dfSeqA` then `dfSeqB` from an empty database. -/
def dbSeq : DBState :=
  [("evts",
    { columns := [("block_number", .bigint), ("hash", .text), ("extra", .numeric78)],
      primaryKey := ["block_number", "hash"],
      rows := [[("block_number", .vInt 1), ("hash", .vStr "a")],
               [("block_number", .vInt 2), ("hash", .vStr "b"), ("extra", .vStr "7")]] })]

theorem schema_union_ratchet_witness :
    (∀ c, c ∈ (tableColsOf dbSeq "evts").map Prod.fst ↔
       ∃ df ∈ [dfSeqA, dfSeqB], c ∈ df.columns.map storedColumnName) ∧
    (∀ bs1 bs2 dbMid, [dfSeqA, dfSeqB] = bs1 ++ bs2 →
       writeSeq [] bs1 "evts" = .ok dbMid →
       ∀ p ∈ tableColsOf dbMid "evts", p ∈ tableColsOf dbSeq "evts") :=
  schema_union_ratchet [] dbSeq [dfSeqA, dfSeqB] "evts" (by decide) (by decide)
    (by decide) (by decide)

/-! ## C5 and C10: the cursor -/

/-- **C5**: `get_max_block_number` is total — for a stream whose storage
table does not exist it returns 0 rather than raising — and for an
existing table with at least one `block_number` value it returns the
maximum `block_number` over the table's rows. -/
theorem max_ingested_correct (db : DBState) (t : String) :
    (lookupTable (normalize_table_name t) db = none →
      get_max_block_number db t = 0) ∧
    (∀ tb, lookupTable (normalize_table_name t) db = some tb →
      blockNumbers tb ≠ [] →
      get_max_block_number db t ∈ blockNumbers tb ∧
      ∀ x ∈ blockNumbers tb, x ≤ get_max_block_number db t) := by
  constructor
  · intro h
    simp [get_max_block_number, h]
  · intro tb hlk hne
    cases hm : (blockNumbers tb).max? with
    | none => exact absurd (List.max?_eq_none_iff.mp hm) hne
    | some a =>
      have hval : get_max_block_number db t = a := by
        simp [get_max_block_number, hlk, hm]
      rw [hval]
      refine ⟨List.max?_mem (fun x y => max_choice x y) hm, ?_⟩
      intro x hx
      exact (List.max?_le_iff (fun a b c => max_le_iff) hm).1 le_rfl x hx

/-- The `{5, 12, 7}` table of the cursor-correctness scenario. -/
def tbMax : Table :=
  { columns := [("block_number", .bigint), ("hash", .text)],
    primaryKey := ["block_number", "hash"],
    rows := [[("block_number", .vInt 5), ("hash", .vStr "a")],
             [("block_number", .vInt 12), ("hash", .vStr "b")],
             [("block_number", .vInt 7), ("hash", .vStr "c")]] }

/-- A database holding `tbMax` under the stream name `evts`. -/
def dbMax : DBState := [("evts", tbMax)]

theorem max_ingested_correct_witness :
    get_max_block_number ([] : DBState) "evts" = 0 ∧
    (get_max_block_number dbMax "evts" ∈ blockNumbers tbMax ∧
     ∀ x ∈ blockNumbers tbMax, x ≤ get_max_block_number dbMax "evts") ∧
    get_max_block_number dbMax "evts" = 12 :=
  ⟨(max_ingested_correct [] "evts").1 (by decide),
   (max_ingested_correct dbMax "evts").2 tbMax (by decide) (by decide),
   by decide⟩

/-- **C10**: an existing-but-empty storage table yields cursor 0, exactly
like an absent table (`COALESCE(MAX(block_number), 0)` over zero rows),
so at the cursor interface the two are indistinguishable and the next
fetch of `process_event_config` starts from block 1 in both cases. -/
theorem empty_table_cursor_like_absent (db1 db2 : DBState) (t : String)
    (tb : Table)
    (h1 : lookupTable (normalize_table_name t) db1 = some tb)
    (hrows : tb.rows = [])
    (h2 : lookupTable (normalize_table_name t) db2 = none) :
    get_max_block_number db1 t = 0 ∧ get_max_block_number db2 t = 0 ∧
    process_event_config_start db1 t 0 = 1 ∧
    process_event_config_start db2 t 0 = 1 := by
  have hb : blockNumbers tb = [] := by
    rw [blockNumbers, hrows]; rfl
  have g1 : get_max_block_number db1 t = 0 := by
    simp [get_max_block_number, h1, hb]
  have g2 : get_max_block_number db2 t = 0 := by
    simp [get_max_block_number, h2]
  refine ⟨g1, g2, ?_, ?_⟩
  · simp [process_event_config_start, g1]
  · simp [process_event_config_start, g2]

/-- An existing `evts` table with no rows. -/
def tbEmpty : Table :=
  { columns := [("block_number", .bigint), ("hash", .text)],
    primaryKey := ["block_number", "hash"],
    rows := [] }

theorem empty_table_cursor_like_absent_witness :
    get_max_block_number [("evts", tbEmpty)] "evts" = 0 ∧
    get_max_block_number ([] : DBState) "evts" = 0 ∧
    process_event_config_start [("evts", tbEmpty)] "evts" 0 = 1 ∧
    process_event_config_start ([] : DBState) "evts" 0 = 1 :=
  empty_table_cursor_like_absent [("evts", tbEmpty)] [] "evts" tbEmpty
    (by decide) (by decide) (by decide)

/-! ## C6: the column-typing policy -/

/-- **C6**: the writer's column-typing function (`get_timescale_type`,
total and deterministic by construction as a Lean function) maps every
column name/semantic-type pair exactly as the enumerated policy:
`block_number` becomes a 64-bit integer regardless of source type; a
declared primary-key column other than `block_number` (for every stream,
these are exactly `hash` and `valblspubkey`) becomes text regardless of
source type; and for all remaining column names, timestamps become
timezone-aware timestamps, 64-bit signed integers become 64-bit integers,
64-bit floats become double precision, booleans become booleans, unsigned
wide integers become high-precision numerics, and every other source type
becomes text. -/
theorem column_typing_policy :
    (∀ n d, pyLower n = "block_number" → get_timescale_type n d = .bigint) ∧
    (∀ t n d, n ∈ get_primary_key_columns t → n ≠ "block_number" →
      get_timescale_type n d = .text) ∧
    (∀ n, pyLower n ∉ ["block_number", "hash", "valblspubkey"] →
      (get_timescale_type n .datetime = .timestamptz ∧
       get_timescale_type n .int64 = .bigint ∧
       get_timescale_type n .float64 = .doublePrecision ∧
       get_timescale_type n .boolean = .boolean ∧
       get_timescale_type n .uint64 = .numeric78 ∧
       get_timescale_type n .utf8 = .text ∧
       get_timescale_type n .int32 = .text ∧
       get_timescale_type n .binary = .text)) := by
  refine ⟨?_, ?_, ?_⟩
  · intro n d h
    unfold get_timescale_type
    rw [if_pos h]
  · intro t n d hmem hne
    unfold get_primary_key_columns at hmem
    split at hmem <;> simp only [List.mem_cons, List.not_mem_nil, or_false] at hmem
    · rcases hmem with rfl | rfl
      · exact absurd rfl hne
      · unfold get_timescale_type
        rw [if_neg (by decide), if_pos (by decide)]
    · rcases hmem with rfl | rfl
      · exact absurd rfl hne
      · unfold get_timescale_type
        rw [if_neg (by decide), if_pos (by decide)]
  · intro n hn
    have hbn : ¬ pyLower n = "block_number" := fun h => hn (by rw [h]; decide)
    have hhv : ¬ (pyLower n = "hash" ∨ pyLower n = "valblspubkey") := by
      rintro (h | h) <;> exact hn (by rw [h]; decide)
    refine ⟨?_, ?_, ?_, ?_, ?_, ?_, ?_, ?_⟩ <;>
      · unfold get_timescale_type
        rw [if_neg hbn, if_neg hhv]

theorem column_typing_policy_witness :
    get_timescale_type "Block_Number" .utf8 = .bigint ∧
    get_timescale_type "hash" .int64 = .text ∧
    get_timescale_type "valblspubkey" .int64 = .text ∧
    get_timescale_type "ts" .datetime = .timestamptz ∧
    get_timescale_type "amount" .uint64 = .numeric78 ∧
    get_timescale_type "note" .binary = .text :=
  ⟨column_typing_policy.1 "Block_Number" .utf8 (by decide),
   column_typing_policy.2.1 "evts" "hash" .int64 (by decide) (by decide),
   column_typing_policy.2.1 "staked" "valblspubkey" .int64 (by decide) (by decide),
   (column_typing_policy.2.2 "ts" (by decide)).1,
   (column_typing_policy.2.2 "amount" (by decide)).2.2.2.2.1,
   (column_typing_policy.2.2 "note" (by decide)).2.2.2.2.2.2.2⟩

/-! ## The materialized-view manager and connection modes
(`src/pipeline/materialized_views.py`, `src/pipeline/db.py:58`) -/

/-- The observable state of the shared psycopg connection: the autocommit
flag, whether the connection is closed, and whether a transaction is open
(`transaction_status == INTRANS`). -/
structure ConnState where
  autocommit : Bool
  closed : Bool
  txnOpen : Bool
deriving DecidableEq

/-- The database-object state the view manager reads and mutates. -/
structure ViewState where
  conn : ConnState
  tables : List String
  matviews : List (String × String)
  indexes : List (String × String × String)
deriving DecidableEq

/-- The SQL statements the view manager issues, recorded as a trace so that
"recreates the view" is observable. -/
inductive SqlOp
  | dropMatView (schema name : String) (cascade : Bool)
  | createMatView (schema name : String)
  | createIndex (schema table index : String)
  | refreshMatView (schema name : String) (concurrently : Bool)
deriving DecidableEq

/-- The `finally` clause shared by both view-creation functions
(`src/pipeline/materialized_views.py:189` and `:360`):
`if self.conn.autocommit: self.conn.autocommit = False`.  It clears the
flag; it does not restore the caller's prior mode. -/
def clearAutocommit (s : ViewState) : ViewState :=
  if s.conn.autocommit then { s with conn := { s.conn with autocommit := false } } else s

/-- Effect of `DROP MATERIALIZED VIEW IF EXISTS sch.nm` on the object
state: the view and its indexes disappear. -/
def dropMatViewState (sch nm : String) (s : ViewState) : ViewState :=
  { s with matviews := s.matviews.filter (fun v => ¬ v = (sch, nm)),
           indexes := s.indexes.filter (fun i => ¬ (i.1 = sch ∧ i.2.1 = nm)) }

/-- `create_openedcommitments_consolidated_view` from
`src/pipeline/materialized_views.py:270` as a state transformer that also
records the SQL it issues.  Faithful shape: if either source table
(`openedcommitmentstored`, `openedcommitmentstoredv2`) is missing, return
False; otherwise switch autocommit on; if the materialized view
`openedcommitmentstoredall` already exists, DROP it (`... CASCADE`, which
also removes the dependent `api.preconf_txs` and its indexes); then CREATE
the view, CREATE its unique index, REFRESH it, and return True.  The
`finally` clause clears the autocommit flag whenever it is set. -/
def create_openedcommitments_consolidated_view (s : ViewState) :
    Bool × List SqlOp × ViewState :=
  if "openedcommitmentstored" ∈ s.tables ∧ "openedcommitmentstoredv2" ∈ s.tables then
    let s1 : ViewState := { s with conn := { s.conn with autocommit := true } }
    let viewExists := ("public", "openedcommitmentstoredall") ∈ s1.matviews
    let s2 := if viewExists then
        dropMatViewState "api" "preconf_txs"
          (dropMatViewState "public" "openedcommitmentstoredall" s1)
      else s1
    let s3 : ViewState := { s2 with
      matviews := ("public", "openedcommitmentstoredall") :: s2.matviews,
      indexes := ("public", "openedcommitmentstoredall",
        "openedcommitmentstoredall_unique_idx") :: s2.indexes }
    (true,
     (if viewExists then
        [SqlOp.dropMatView "public" "openedcommitmentstoredall" true]
      else []) ++
       [SqlOp.createMatView "public" "openedcommitmentstoredall",
        SqlOp.createIndex "public" "openedcommitmentstoredall"
          "openedcommitmentstoredall_unique_idx",
        SqlOp.refreshMatView "public" "openedcommitmentstoredall" false],
     clearAutocommit s3)
  else (false, [], clearAutocommit s)

/-- `create_preconf_txs_view` from `src/pipeline/materialized_views.py:51`.

Its first statement is `if not self.verify_permissions():`, but
`verify_permissions` is defined at module level
(`src/pipeline/materialized_views.py:437`, column 0), not as a method of
`MaterializedViewManager`, so the attribute access raises
`AttributeError`; the function's `except` catches it and returns False,
and its `finally` clause clears the autocommit flag.  The function
therefore never issues any view DDL: it returns False with an empty
operation trace, clearing autocommit. -/
def create_preconf_txs_view (s : ViewState) : Bool × List SqlOp × ViewState :=
  (false, [], clearAutocommit s)

/-- `DatabaseConnection.autocommit` from `src/pipeline/db.py:58` as a
higher-order scope.  The body reports whether it completed without raising
and the connection state it left; the `finally` clause runs on both exits:
when the connection is still open it commits any pending transaction and
restores the remembered original autocommit flag. -/
def DatabaseConnection_autocommit (s : ConnState)
    (body : ConnState → Bool × ConnState) : Bool × ConnState :=
  let s0 := if s.txnOpen then { s with txnOpen := false } else s
  let r := body { s0 with autocommit := true }
  if r.2.closed then r
  else (r.1, { (if r.2.txnOpen then { r.2 with txnOpen := false } else r.2) with
    autocommit := s0.autocommit })

/-- A ready state: both source tables present, the consolidated view and
its index already existing, autocommit off. -/
def viewStateReady : ViewState :=
  { conn := { autocommit := false, closed := false, txnOpen := false },
    tables := ["openedcommitmentstored", "openedcommitmentstoredv2"],
    matviews := [("public", "openedcommitmentstoredall")],
    indexes := [("public", "openedcommitmentstoredall",
      "openedcommitmentstoredall_unique_idx")] }

/-- **C7 counterexample**: with both input tables present and the
consolidated view already existing, calling
`create_openedcommitments_consolidated_view` again issues
`DROP MATERIALIZED VIEW` followed by `CREATE MATERIALIZED VIEW` — it
recreates (drops and rebuilds) the existing view instead of skipping
recreation and only self-healing a missing uniqueness index. -/
theorem consolidated_view_recreated_counterexample :
    ("public", "openedcommitmentstoredall") ∈ viewStateReady.matviews ∧
    SqlOp.dropMatView "public" "openedcommitmentstoredall" true ∈
      (create_openedcommitments_consolidated_view viewStateReady).2.1 ∧
    SqlOp.createMatView "public" "openedcommitmentstoredall" ∈
      (create_openedcommitments_consolidated_view viewStateReady).2.1 := by decide

theorem clearAutocommit_auto (s : ViewState) :
    (clearAutocommit s).conn.autocommit = false := by
  unfold clearAutocommit
  split
  · rfl
  · rename_i h
    simpa using h

theorem filter_stable_left {α : Type} (l : List α) (p q : α → Bool) :
    ((l.filter p).filter q).filter p = (l.filter p).filter q := by
  rw [List.filter_eq_self]
  intro v hv
  exact List.of_mem_filter (List.mem_of_mem_filter hv)

theorem filter_stable_right {α : Type} (l : List α) (p q : α → Bool) :
    ((l.filter p).filter q).filter q = (l.filter p).filter q := by
  rw [List.filter_eq_self]
  intro v hv
  exact List.of_mem_filter hv

theorem filter_all_true {α : Type} (l : List α) (p : α → Bool)
    (h : ∀ a ∈ l, p a = true) : l.filter p = l :=
  List.filter_eq_self.mpr h

/-- **C7 (amended)**: repeated calls of the view-creation operations
converge without error — calling the consolidated-view creation twice
yields the same result and final state as calling it once (under the
referential-integrity invariants that `api.preconf_txs` and any index on
the two views only exist while their relation does) — but not by skipping
recreation: whenever the view already exists, the call's SQL trace
contains a DROP followed by a CREATE of the view, and
`create_preconf_txs_view` performs no view DDL at all (it always returns
False because its permission check raises `AttributeError`). -/
theorem view_creation_convergence (s : ViewState)
    (h1 : "openedcommitmentstored" ∈ s.tables)
    (h2 : "openedcommitmentstoredv2" ∈ s.tables)
    (hdep : ("api", "preconf_txs") ∈ s.matviews →
      ("public", "openedcommitmentstoredall") ∈ s.matviews)
    (hidx1 : ∀ i ∈ s.indexes, i.1 = "public" ∧ i.2.1 = "openedcommitmentstoredall" →
      ("public", "openedcommitmentstoredall") ∈ s.matviews)
    (hidx2 : ∀ i ∈ s.indexes, i.1 = "api" ∧ i.2.1 = "preconf_txs" →
      ("api", "preconf_txs") ∈ s.matviews) :
    (create_openedcommitments_consolidated_view s).1 = true ∧
    (create_openedcommitments_consolidated_view
      (create_openedcommitments_consolidated_view s).2.2).1 = true ∧
    (create_openedcommitments_consolidated_view
      (create_openedcommitments_consolidated_view s).2.2).2.2 =
      (create_openedcommitments_consolidated_view s).2.2 ∧
    SqlOp.dropMatView "public" "openedcommitmentstoredall" true ∈
      (create_openedcommitments_consolidated_view
        (create_openedcommitments_consolidated_view s).2.2).2.1 ∧
    (∀ sv : ViewState, (create_preconf_txs_view sv).1 = false ∧
      (create_preconf_txs_view sv).2.1 = []) := by
  by_cases hv : ("public", "openedcommitmentstoredall") ∈ s.matviews
  · have hs1 : (create_openedcommitments_consolidated_view s).2.2 =
        { conn := { s.conn with autocommit := false },
          tables := s.tables,
          matviews := ("public", "openedcommitmentstoredall") ::
            ((s.matviews.filter
                (fun v => ¬ v = ("public", "openedcommitmentstoredall"))).filter
              (fun v => ¬ v = ("api", "preconf_txs"))),
          indexes := ("public", "openedcommitmentstoredall",
              "openedcommitmentstoredall_unique_idx") ::
            ((s.indexes.filter
                (fun i => ¬ (i.1 = "public" ∧ i.2.1 = "openedcommitmentstoredall"))).filter
              (fun i => ¬ (i.1 = "api" ∧ i.2.1 = "preconf_txs"))) } := by
      simp [create_openedcommitments_consolidated_view, h1, h2, hv,
        clearAutocommit, dropMatViewState]
    refine ⟨?_, ?_, ?_, ?_, fun sv => ⟨rfl, rfl⟩⟩
    · simp [create_openedcommitments_consolidated_view, h1, h2]
    · rw [hs1]
      simp [create_openedcommitments_consolidated_view, h1, h2]
    · rw [hs1]
      simp [create_openedcommitments_consolidated_view, h1, h2,
        clearAutocommit, dropMatViewState]
      constructor
      · apply List.filter_congr
        intro a _
        cases decide (a = ("api", "preconf_txs")) <;>
          cases decide (a = ("public", "openedcommitmentstoredall")) <;> rfl
      · apply List.filter_congr
        intro a _
        cases decide (a.1 = "api") <;> cases decide (a.2.1 = "preconf_txs") <;>
          cases decide (a.1 = "public") <;>
          cases decide (a.2.1 = "openedcommitmentstoredall") <;> rfl
    · rw [hs1]
      simp [create_openedcommitments_consolidated_view, h1, h2,
        clearAutocommit, dropMatViewState]
  · have hs1 : (create_openedcommitments_consolidated_view s).2.2 =
        { conn := { s.conn with autocommit := false },
          tables := s.tables,
          matviews := ("public", "openedcommitmentstoredall") :: s.matviews,
          indexes := ("public", "openedcommitmentstoredall",
              "openedcommitmentstoredall_unique_idx") :: s.indexes } := by
      simp [create_openedcommitments_consolidated_view, h1, h2, hv, clearAutocommit]
    refine ⟨?_, ?_, ?_, ?_, fun sv => ⟨rfl, rfl⟩⟩
    · simp [create_openedcommitments_consolidated_view, h1, h2]
    · rw [hs1]
      simp [create_openedcommitments_consolidated_view, h1, h2]
    · rw [hs1]
      simp [create_openedcommitments_consolidated_view, h1, h2,
        clearAutocommit, dropMatViewState]
      constructor
      · intro a b hab
        constructor
        · intro ha hb
          exact hv (hdep (by rw [ha, hb] at hab; exact hab))
        · intro ha hb
          exact hv (by rw [ha, hb] at hab; exact hab)
      · intro a a1 b hab
        constructor
        · by_cases ha : a = "api"
          · exact Or.inr (fun hb => hv (hdep (hidx2 (a, a1, b) hab ⟨ha, hb⟩)))
          · exact Or.inl ha
        · by_cases ha : a = "public"
          · exact Or.inr (fun hb => hv (hidx1 (a, a1, b) hab ⟨ha, hb⟩))
          · exact Or.inl ha
    · rw [hs1]
      simp [create_openedcommitments_consolidated_view, h1, h2,
        clearAutocommit, dropMatViewState]

theorem view_creation_convergence_witness :
    (create_openedcommitments_consolidated_view viewStateReady).1 = true ∧
    (create_openedcommitments_consolidated_view
      (create_openedcommitments_consolidated_view viewStateReady).2.2).1 = true ∧
    (create_openedcommitments_consolidated_view
      (create_openedcommitments_consolidated_view viewStateReady).2.2).2.2 =
      (create_openedcommitments_consolidated_view viewStateReady).2.2 ∧
    SqlOp.dropMatView "public" "openedcommitmentstoredall" true ∈
      (create_openedcommitments_consolidated_view
        (create_openedcommitments_consolidated_view viewStateReady).2.2).2.1 ∧
    (∀ sv : ViewState, (create_preconf_txs_view sv).1 = false ∧
      (create_preconf_txs_view sv).2.1 = []) :=
  view_creation_convergence viewStateReady (by decide) (by decide) (by decide)
    (by decide) (by decide)

/-- A ready view state whose connection has autocommit enabled before the
scoped switch runs. -/
def viewStateAuto : ViewState :=
  { conn := { autocommit := true, closed := false, txnOpen := false },
    tables := ["openedcommitmentstored", "openedcommitmentstoredv2"],
    matviews := [], indexes := [] }

/-- **C8 counterexample**: a scoped autocommit switch that does not restore
the prior mode.  With the connection's autocommit mode previously enabled,
both view-creation functions exit (here: normally) with autocommit
disabled — their `finally` blocks run
`if self.conn.autocommit: self.conn.autocommit = False`, clearing the flag
instead of restoring the prior mode. -/
theorem autocommit_not_restored_counterexample :
    viewStateAuto.conn.autocommit = true ∧
    (create_openedcommitments_consolidated_view
      viewStateAuto).2.2.conn.autocommit = false ∧
    (create_preconf_txs_view viewStateAuto).2.2.conn.autocommit = false := by
  decide

theorem restore_core (orig : Bool) (r : Bool × ConnState)
    (hopen : ((if r.2.closed then r else
      (r.1, { (if r.2.txnOpen then { r.2 with txnOpen := false } else r.2) with
        autocommit := orig })) : Bool × ConnState).2.closed = false) :
    ((if r.2.closed then r else
      (r.1, { (if r.2.txnOpen then { r.2 with txnOpen := false } else r.2) with
        autocommit := orig })) : Bool × ConnState).2.autocommit = orig := by
  by_cases hc : r.2.closed = true
  · rw [if_pos hc] at hopen
    rw [hopen] at hc
    cases hc
  · rw [if_neg hc]

/-- **C8 (amended)**: `DatabaseConnection.autocommit` restores the
connection's prior autocommit mode on every exit path — whether or not the
body completed normally — whenever the connection is still open on exit;
but the view-creation functions' scoped switches do not restore the prior
mode: their cleanup unconditionally leaves autocommit disabled, so a
caller that had autocommit enabled finds it disabled afterwards. -/
theorem autocommit_scope_restores (s : ConnState)
    (body : ConnState → Bool × ConnState)
    (hopen : (DatabaseConnection_autocommit s body).2.closed = false) :
    (DatabaseConnection_autocommit s body).2.autocommit = s.autocommit ∧
    (∀ sv : ViewState,
      (create_openedcommitments_consolidated_view sv).2.2.conn.autocommit = false ∧
      (create_preconf_txs_view sv).2.2.conn.autocommit = false) := by
  constructor
  · simp only [DatabaseConnection_autocommit] at hopen ⊢
    exact (restore_core _ _ hopen).trans (by split <;> rfl)
  · intro sv
    constructor
    · show (create_openedcommitments_consolidated_view sv).2.2.conn.autocommit = false
      unfold create_openedcommitments_consolidated_view
      split
      · exact clearAutocommit_auto _
      · exact clearAutocommit_auto _
    · exact clearAutocommit_auto _

theorem autocommit_scope_restores_witness :
    (DatabaseConnection_autocommit
        { autocommit := true, closed := false, txnOpen := true }
        (fun c => (false, { c with txnOpen := true }))).2.autocommit = true ∧
    (∀ sv : ViewState,
      (create_openedcommitments_consolidated_view sv).2.2.conn.autocommit = false ∧
      (create_preconf_txs_view sv).2.2.conn.autocommit = false) :=
  autocommit_scope_restores { autocommit := true, closed := false, txnOpen := true }
    (fun c => (false, { c with txnOpen := true })) (by decide)

/-! ## C9: the orchestrator's bounded retry loop (`src/main.py:83`) -/

/-- `max_retries` from `src/main.py:88`. -/
def max_retries : Nat := 3

/-- `retry_delay` (seconds between outer attempts) from `src/main.py:89`. -/
def retry_delay : Nat := 5

/-- The counter update one outer-loop attempt performs.  An attempt is
summarized by the number of successful cycles it completes before an
exception escapes the inner loop to the outer `except`
(`src/main.py:146`); cycle-level errors are caught inside the inner loop
(`src/main.py:138`) and touch neither the counter nor the attempt.  Each
successful cycle runs `retry_count = 0` (`src/main.py:136`), and the
escaping exception then runs `retry_count += 1`. -/
def mainStep (retry_count successfulCycles : Nat) : Nat :=
  (if 0 < successfulCycles then 0 else retry_count) + 1

/-- The orchestrator's outer `while retry_count < max_retries` loop over a
finite schedule of attempts: `true` means the process terminated by
exhausting the retry bound ("Max retries reached, exiting..."), `false`
means the schedule was consumed while the loop was still retrying. -/
def mainLoopRun : Nat → List Nat → Bool
  | _, [] => false
  | rc, k :: rest =>
    if mainStep rc k < max_retries then mainLoopRun (mainStep rc k) rest else true

/-- **C9**: the orchestrator retries full-loop failures up to the fixed
bound `max_retries = 3`, sleeping the fixed `retry_delay = 5` seconds
between attempts; three consecutive failing attempts (no successful cycle
in any of them) always terminate the process regardless of the prior
counter value; an attempt containing at least one successful cycle resets
the counter, so the run continues exactly as if the counter were 1 after
that attempt's failure; in particular the schedule of three failing
attempts terminates, while two failing attempts, then an attempt with a
successful cycle before its failure, then one more failing attempt — two
failures, a success, two failures at the top level — does not. -/
theorem main_retry_bound :
    max_retries = 3 ∧ retry_delay = 5 ∧
    (∀ rc rest, mainLoopRun rc (0 :: 0 :: 0 :: rest) = true) ∧
    (∀ rc k rest, 0 < k → mainLoopRun rc (k :: rest) = mainLoopRun 1 rest) ∧
    mainLoopRun 0 [0, 0, 0] = true ∧
    mainLoopRun 0 [0, 0, 1, 0] = false := by
  refine ⟨rfl, rfl, ?_, ?_, by decide, by decide⟩
  · intro rc rest
    unfold mainLoopRun mainStep
    simp only [Nat.lt_irrefl, if_false]
    split
    · unfold mainLoopRun mainStep
      simp only [Nat.lt_irrefl, if_false]
      split
      · unfold mainLoopRun mainStep
        simp only [Nat.lt_irrefl, if_false]
        rw [if_neg (by unfold max_retries; omega)]
      · rfl
    · rfl
  · intro rc k rest hk
    show (if mainStep rc k < max_retries then
      mainLoopRun (mainStep rc k) rest else true) = mainLoopRun 1 rest
    unfold mainStep
    rw [if_pos hk, Nat.zero_add, if_pos (by unfold max_retries; omega)]

theorem main_retry_bound_witness :
    mainLoopRun 5 [0, 0, 0] = true ∧
    mainLoopRun 0 (2 :: [7]) = mainLoopRun 1 [7] :=
  ⟨main_retry_bound.2.2.1 5 [], main_retry_bound.2.2.2.1 0 2 [7] (by decide)⟩
